import Mathlib

/-!
# Verification of the OR-SST extraction core

Shallow embedding of the extraction/normalization core of the OR-SST
repository (`src/extractor/postprocess.py`, `src/extractor/model_infer.py`,
`src/extractor/ner_interactive_tester.py`, `src/extractor/correction_manager.py`)
together with theorems settling the specification claims about it.

Modelling conventions:
* Python `str` values are Lean `String`s; all character-level operations are
  defined on `List Char` so that every definition evaluates by kernel
  reduction.  The inputs of this program are ASCII transcripts, so the
  ASCII-only behaviour of `Char.toLower`/`Char.toUpper` coincides with
  Python's `str.lower`/`str.upper` on the relevant alphabet.
* Python floats (model confidence scores) are modelled as exact rationals
  `ℚ`; `max` and `(a + b) / 2` are the exact counterparts of the float
  operations used on scores.
* Character offsets (`start`/`end`) are `Nat`.  The only subtraction the
  source performs on them is the adjacency test `entity['start'] -
  buffer['end'] <= 2`, and truncated `Nat` subtraction gives the same
  truth value as Python's signed subtraction there (a negative difference
  and a clamped-to-zero difference both satisfy `≤ 2`).
-/

namespace ORSST

/-- Python's whitespace class `\s` (the characters stripped by `str.strip`
and matched by `re` `\s`): space, tab, newline, carriage return, vertical
tab, form feed. -/
def isSpaceChar (c : Char) : Bool :=
  c = ' ' || c = '\t' || c = '\n' || c = '\r' || c = '\x0b' || c = '\x0c'

/-- Python's regex word class `\w` restricted to ASCII (letters, digits,
underscore); used for `\b` word boundaries. -/
def isWordChar (c : Char) : Bool :=
  c.isAlpha || c.isDigit || c = '_'

/-- `str.strip()` on a character list. -/
def stripChars (l : List Char) : List Char :=
  ((l.dropWhile isSpaceChar).reverse.dropWhile isSpaceChar).reverse

/-- Python `str.strip()`. -/
def pyStrip (s : String) : String := ⟨stripChars s.data⟩

/-- Python `str.lower()` (ASCII). -/
def pyLower (s : String) : String := ⟨s.data.map Char.toLower⟩

/-- Python `str.upper()` (ASCII). -/
def pyUpper (s : String) : String := ⟨s.data.map Char.toUpper⟩

/-- Python `str.startswith` on lists. -/
def pyStartsWith (s pat : String) : Bool := pat.data.isPrefixOf s.data

/-- Leftmost, non-overlapping replacement of `pat` by `rep`, as in Python
`str.replace`, with explicit fuel (the source never calls `replace` with an
empty pattern, so the empty-pattern case is irrelevant here and simply
keeps the string). -/
def replaceFuel (pat rep : List Char) : Nat → List Char → List Char
  | 0, s => s
  | _ + 1, [] => []
  | fuel + 1, c :: cs =>
    if pat ≠ [] ∧ pat.isPrefixOf (c :: cs) then
      rep ++ replaceFuel pat rep fuel ((c :: cs).drop pat.length)
    else
      c :: replaceFuel pat rep fuel cs

/-- Python `str.replace(pat, rep)` (replaces every occurrence). -/
def pyReplace (s pat rep : String) : String :=
  ⟨replaceFuel pat.data rep.data s.data.length s.data⟩

/-- Replace every maximal run of characters satisfying `p` by a single
space, as in `re.sub(r"[,\.;]+", " ", t)` / `re.sub(r"\s+", " ", t)`;
fuel-indexed for totality. -/
def collapseRunsFuel (p : Char → Bool) : Nat → List Char → List Char
  | 0, s => s
  | _ + 1, [] => []
  | fuel + 1, c :: cs =>
    if p c then ' ' :: collapseRunsFuel p fuel (cs.dropWhile p)
    else c :: collapseRunsFuel p fuel cs

/-- `re.sub` of a character-class `+` pattern by a single space. -/
def collapseRuns (p : Char → Bool) (s : String) : String :=
  ⟨collapseRunsFuel p s.data.length s.data⟩

/-- Python `pat in s` (substring containment). -/
def containsSub (s pat : String) : Bool :=
  (List.range (s.data.length + 1)).any fun i => pat.data.isPrefixOf (s.data.drop i)

/-- Numeric value of a list of decimal digit characters (used for Python
`int(...)` on a digit string, which also discards leading zeros). -/
def digitsVal (l : List Char) : Nat :=
  l.foldl (fun acc c => 10 * acc + (c.toNat - '0'.toNat)) 0

/-- Python truthiness of an optional string (`if x:` on `Optional[str]`):
true iff present and non-empty. -/
def pyTruthyOpt (o : Option String) : Bool :=
  match o with
  | some s => s ≠ ""
  | none => false

/-- Python slice `text[a:b]` on a character list (clamping, empty when
`b ≤ a`). -/
def sliceChars (l : List Char) (a b : Nat) : List Char :=
  (l.drop a).take (b - a)

/-- `max` on scores, written with the decidable order on `ℚ` so every
score computation evaluates. -/
def scoreMax (a b : ℚ) : ℚ := if a ≤ b then b else a

/-!
## Data model: raw predictions

One entity dictionary as produced by the HuggingFace token-classification
pipeline and consumed by `_merge_subword_tokens`, `decode_entities_to_json`
and `_align_predictions_to_tokens`.  The keys `entity`, `entity_group` and
`word` may be absent (the sources access them with `.get`), which is
modelled with `Option`.  The offset and score keys are always emitted by
the pipeline and are modelled as plain fields.
-/

structure Entity where
  entity : Option String := none
  entity_group : Option String := none
  word : Option String := none
  start : Nat := 0
  «end» : Nat := 0
  score : ℚ := 0
deriving Repr, DecidableEq

/-!
## Span Aggregator: `SlotFillingExtractor._merge_subword_tokens`
(`src/extractor/model_infer.py`, lines 85–144)
-/

/-- State of the aggregation loop: the `merged` output accumulated so far
and the currently open `buffer`. -/
structure MergeState where
  merged : List Entity := []
  buffer : Option Entity := none
deriving Repr, DecidableEq

/-- One iteration of the `for entity in entities` loop of
`_merge_subword_tokens`.  The two `buffer['word'] += ...` updates read the
buffer's `word` with a default of `""`; in Python a buffer dictionary
without a `'word'` key would raise `KeyError` there (and the caller would
swallow the exception), a case no theorem below relies on. -/
def mergeStep (text : String) (st : MergeState) (e : Entity) : MergeState :=
  let w := e.word.getD ""
  let is_subword := pyStartsWith w "##"
  match st.buffer with
  | some b =>
    if is_subword then
      { st with buffer := some { b with
          word := some ((b.word.getD "") ++ pyReplace w "##" ""),
          «end» := e.«end»,
          score := scoreMax b.score e.score } }
    else
      let same_entity := b.entity = e.entity ∨ b.entity_group = e.entity_group
      let is_adjacent := e.start - b.«end» ≤ 2
      if same_entity ∧ is_adjacent then
        let between_text : String := ⟨sliceChars text.data b.«end» e.start⟩
        { st with buffer := some { b with
            word := some ((b.word.getD "") ++ between_text ++ (e.word.getD "")),
            «end» := e.«end»,
            score := (b.score + e.score) / 2 } }
      else
        { merged := st.merged ++ [b], buffer := some e }
  | none => { st with buffer := some e }

/-- `SlotFillingExtractor._merge_subword_tokens(entities, text)`. -/
def merge_subword_tokens (entities : List Entity) (text : String) : List Entity :=
  if entities = [] then []
  else
    let final := entities.foldl (mergeStep text) {}
    match final.buffer with
    | some b => final.merged ++ [b]
    | none => final.merged

/-!
## `extractor/postprocess.py`: helpers
-/

/-- `_first_int`: first decimal-digit run in the string (`re.search(r"\d+", s)`),
as a number (Python `int`). -/
def first_int (s : String) : Option Nat :=
  let l := s.data.dropWhile (fun c => !c.isDigit)
  if l = [] then none else some (digitsVal (l.takeWhile Char.isDigit))

/-- `_first_float`: first match of `\d+(\.\d+)?` as a number.  Python's
`float` value is modelled as the exact rational the literal denotes. -/
def first_float (s : String) : Option ℚ :=
  let l := s.data.dropWhile (fun c => !c.isDigit)
  if l = [] then none
  else
    let ip := l.takeWhile Char.isDigit
    let rest := l.drop ip.length
    match rest with
    | '.' :: r =>
      let fp := r.takeWhile Char.isDigit
      if fp = [] then some (digitsVal ip : ℚ)
      else some ((digitsVal ip : ℚ) + (digitsVal fp : ℚ) / ((10 : ℚ) ^ fp.length))
    | _ => some (digitsVal ip : ℚ)

/-- `normalize_time`: lower-case, strip, periods to colons, collapse
whitespace (basic normalization for model time spans). -/
def normalize_time (text : String) : String :=
  collapseRuns isSpaceChar (pyReplace (pyStrip (pyLower text)) "." ":")

/-- `clean_transcript`: strip, normalize spoken a.m./p.m., strip `,.;`
punctuation runs to spaces, collapse whitespace, strip. -/
def clean_transcript (t : String) : String :=
  let t1 := pyStrip t
  let t2 := pyReplace (pyReplace t1 "p.m." "pm") "a.m." "am"
  let t3 := pyReplace (pyReplace t2 "p.m" "pm") "a.m" "am"
  let t4 := collapseRuns (fun c => c = ',' || c = '.' || c = ';') t3
  pyStrip (collapseRuns isSpaceChar t4)

/-- `join_clean`: join word pieces with single spaces, dropping fragments
with no ASCII alphanumeric character, then strip. -/
def join_clean (words : List String) : String :=
  pyStrip ⟨List.intercalate [' ']
    ((words.filter fun w => w.data.any fun c => c.isAlpha || c.isDigit).map (·.data))⟩

/-- Python `s or None` (empty string becomes `None`). -/
def orNone (s : String) : Option String :=
  if s = "" then none else some s

/-!
## Modelled external date parser

`normalize_date` in the source delegates to `dateutil.parser.parse(text,
dayfirst=True)`, an external library that is not part of this repository.
-/

/-- English month names and their common three-letter abbreviations. -/
def monthOfToken (tok : String) : Option Nat :=
  match tok with
  | "january" => some 1 | "jan" => some 1
  | "february" => some 2 | "feb" => some 2
  | "march" => some 3 | "mar" => some 3
  | "april" => some 4 | "apr" => some 4
  | "may" => some 5
  | "june" => some 6 | "jun" => some 6
  | "july" => some 7 | "jul" => some 7
  | "august" => some 8 | "aug" => some 8
  | "september" => some 9 | "sep" => some 9
  | "october" => some 10 | "oct" => some 10
  | "november" => some 11 | "nov" => some 11
  | "december" => some 12 | "dec" => some 12
  | _ => none

/-- A numeric date token: a digit run with an optional English ordinal
suffix (`15`, `15th`, `1st`, `2nd`, `3rd`). -/
def numOfToken (tok : String) : Option Nat :=
  let ds := tok.data.takeWhile Char.isDigit
  let rest := tok.data.drop ds.length
  if ds = [] then none
  else if rest = [] ∨ rest = ['s','t'] ∨ rest = ['n','d'] ∨ rest = ['r','d'] ∨ rest = ['t','h'] then
    some (digitsVal ds)
  else none

/-- One token of a date string: a month name or a number; anything else is
unparsable. -/
inductive DateTok where
  | month (m : Nat)
  | num (n : Nat)
deriving Repr, DecidableEq

/-- Split a date string at whitespace and the separators `/`, `-`, `,`
(fuel-indexed). -/
def dateSepChar (c : Char) : Bool :=
  isSpaceChar c || c = '/' || c = '-' || c = ','

def splitTokensFuel (p : Char → Bool) : Nat → List Char → List (List Char)
  | 0, _ => []
  | fuel + 1, l =>
    let l1 := l.dropWhile p
    if l1 = [] then []
    else (l1.takeWhile fun c => !p c) :: splitTokensFuel p fuel (l1.dropWhile fun c => !p c)

def splitOn (p : Char → Bool) (s : String) : List String :=
  (splitTokensFuel p (s.data.length + 1) s.data).map (⟨·⟩)

/-- Number of days in a month (proleptic Gregorian, with leap years). -/
def daysInMonth (y m : Nat) : Nat :=
  if m = 2 then
    if y % 4 = 0 ∧ (y % 100 ≠ 0 ∨ y % 400 = 0) then 29 else 28
  else if m = 4 ∨ m = 6 ∨ m = 9 ∨ m = 11 then 30
  else 31

/-- Of two numbers accompanying a month name, the one with at least three
digits is the year and the other the day (`(day, year)`); any other
combination is ambiguous and unhandled by the model. -/
def resolveDayYear (a b : Nat) : Option (Nat × Nat) :=
  if 100 ≤ b ∧ ¬(100 ≤ a) then some (a, b)
  else if 100 ≤ a ∧ ¬(100 ≤ b) then some (b, a)
  else none

/-- Modelled from the spec: `dateutil.parser.parse(text, dayfirst=True)`
(the `python-dateutil` library, an external collaborator not in `src/`).
Per the spec, the parse resolves day/month ambiguity in favour of
day-first.  The model covers the forms the extraction core feeds it:
a month name (or its three-letter abbreviation) together with a day number
(optionally with an ordinal suffix) and a full year, in either order, and
purely numeric `day month year` triples read day-first; a calendar-invalid
or unrecognized text yields `none` (the library raises, and the caller
turns that into `None`). -/
def parseDayfirst (text : String) : Option (Nat × Nat × Nat) :=
  let toks := (splitOn dateSepChar (pyLower text)).mapM fun tok =>
    match monthOfToken tok with
    | some m => some (DateTok.month m)
    | none => (numOfToken tok).map DateTok.num
  let assemble : Nat → Nat → Nat → Option (Nat × Nat × Nat) := fun y m d =>
    if 1 ≤ m ∧ m ≤ 12 ∧ 1 ≤ d ∧ d ≤ daysInMonth y m then some (y, m, d) else none
  match toks with
  | some [DateTok.month m, DateTok.num a, DateTok.num b]
  | some [DateTok.num a, DateTok.month m, DateTok.num b]
  | some [DateTok.num a, DateTok.num b, DateTok.month m] =>
    match resolveDayYear a b with
    | some dy => assemble dy.2 m dy.1
    | none => none
  | some [DateTok.num d, DateTok.num m, DateTok.num y] =>
    if 100 ≤ y then assemble y m d else none
  | _ => none

/-- Decimal rendering of `n` left-padded with zeros to width `w`. -/
def padNum (n w : Nat) : String :=
  let s := Nat.repr n
  ⟨List.replicate (w - s.data.length) '0' ++ s.data⟩

/-- `normalize_date`: parse with the day-first parser and return the ISO
`YYYY-MM-DD` string; unparsable input yields `none` (the source catches
every exception and returns `None`). -/
def normalize_date (text : String) : Option String :=
  (parseDayfirst text).map fun ymd =>
    padNum ymd.1 4 ++ "-" ++ padNum ymd.2.1 2 ++ "-" ++ padNum ymd.2.2 2

/-!
## Rule-based override engine: word-boundary scanning

The surgeon and in/out-time rules in `postprocess.py` are Python regexes;
they are embedded here as explicit left-to-right scans over the cleaned
text.  `scanChars f prev l` tries `f` at every position of the text (also
at the end), left to right, carrying the previous character so `f` can
evaluate `\b` word boundaries; it returns the first success — exactly
`re.search`'s leftmost-match rule.
-/

def scanChars (f : Option Char → List Char → Option α) : Option Char → List Char → Option α
  | prev, [] => f prev []
  | prev, c :: cs =>
    match f prev (c :: cs) with
    | some r => some r
    | none => scanChars f (some c) cs

/-- `\b` before a word character at the current position: start of string
or a preceding non-word character. -/
def boundaryOk (prev : Option Char) : Bool :=
  match prev with
  | none => true
  | some c => !isWordChar c

/-- `\b` after a word character: end of string or a following non-word
character. -/
def afterBoundary (l : List Char) : Bool :=
  match l with
  | [] => true
  | c :: _ => !isWordChar c

/-- `\b w \b` at the current position, for a word `w` made of word
characters. -/
def wordAt (w : String) (prev : Option Char) (l : List Char) : Bool :=
  boundaryOk prev && w.data.isPrefixOf l && afterBoundary (l.drop w.data.length)

/-!
### `extract_surgeons_from_text` (`postprocess.py`, lines 78–109)

`grab(slot)` embeds
`re.search(rf"(?:^|\b)surgeon\s*{slot}\b\s+(.*?)(?=\bsurgeon\b|\bin\b|\bout\b|\bend\b|$)", t)`.
The lazy capture `(.*?)` with the lookahead stops at the first position
where one of the alternatives (or the end of the string) matches, and
because `$` always matches at the end, the whole pattern succeeds exactly
when its prefix up to `\s+` does, at the leftmost such position. -/

/-- The lookahead `(?=\bsurgeon\b|\bin\b|\bout\b|\bend\b|$)`. -/
def surgeonStop (prev : Option Char) (l : List Char) : Bool :=
  wordAt "surgeon" prev l || wordAt "in" prev l || wordAt "out" prev l ||
    wordAt "end" prev l || l.isEmpty

/-- Consume the lazy capture `(.*?)` up to the first position where `stop`
holds (the end of the string always stops). -/
def captureUntil (stop : Option Char → List Char → Bool) : Option Char → List Char → List Char
  | _, [] => []
  | prev, c :: cs => if stop prev (c :: cs) then [] else c :: captureUntil stop (some c) cs

/-- Try the `grab` pattern at one position: `(?:^|\b)surgeon\s*<digit>\b\s+`
followed by the lazy capture. -/
def grabAt (slotDigit : Char) (prev : Option Char) (l : List Char) : Option (List Char) :=
  if !boundaryOk prev then none
  else if !("surgeon".data.isPrefixOf l) then none
  else
    let l1 := (l.drop 7).dropWhile isSpaceChar
    match l1 with
    | [] => none
    | d :: l2 =>
      if d ≠ slotDigit then none
      else if !afterBoundary l2 then none
      else
        let ws := l2.takeWhile isSpaceChar
        if ws = [] then none
        else some (captureUntil surgeonStop ws.getLast? (l2.dropWhile isSpaceChar))

/-- `re.sub(r"^(dr|doctor)\b\s*", "", val)`: drop a leading title token
(the alternation tries `dr` first and backtracks to `doctor` when the
word boundary after `dr` fails). -/
def stripTitle (val : String) : String :=
  if "dr".data.isPrefixOf val.data ∧ afterBoundary (val.data.drop 2) then
    ⟨(val.data.drop 2).dropWhile isSpaceChar⟩
  else if "doctor".data.isPrefixOf val.data ∧ afterBoundary (val.data.drop 6) then
    ⟨(val.data.drop 6).dropWhile isSpaceChar⟩
  else val

/-- Python `str.split()` (split at whitespace runs, no empty pieces),
fuel-indexed. -/
def pySplit (s : String) : List String :=
  (splitTokensFuel isSpaceChar (s.data.length + 1) s.data).map (⟨·⟩)

/-- A name-like token: `re.fullmatch(r"[a-z\-]+", w)`. -/
def nameLike (w : String) : Bool :=
  w.data ≠ [] && w.data.all fun c => c.isLower || c = '-'

/-- The body of `grab` in `extract_surgeons_from_text`. -/
def grab (t : String) (slotDigit : Char) : Option String :=
  match scanChars (grabAt slotDigit) none t.data with
  | none => none
  | some captured =>
    let val := stripTitle (pyStrip ⟨captured⟩)
    let toks := (pySplit (pyStrip val)).filter nameLike
    if toks = [] then none
    else some ⟨List.intercalate [' '] (toks.map (·.data))⟩

/-- Result of `extract_surgeons_from_text`. -/
structure Surgeons where
  surgeon_1 : Option String := none
  surgeon_2 : Option String := none
deriving Repr, DecidableEq

/-- `extract_surgeons_from_text(t)`. -/
def extract_surgeons_from_text (t : String) : Surgeons :=
  let t1 := pyLower (clean_transcript t)
  let t2 := pyReplace (pyReplace t1 "surgeon one" "surgeon 1") "first surgeon" "surgeon 1"
  let t3 := pyReplace (pyReplace t2 "surgeon two" "surgeon 2") "second surgeon" "surgeon 2"
  { surgeon_1 := grab t3 '1', surgeon_2 := grab t3 '2' }

/-!
### Time patterns (`postprocess.py`, lines 115–168)

`extract_time_from_text` matches
`\b<kw>\b\s+(<time>)` and then `(<time>)\s+\b<kw>\b`, where `<time>` is
`\d{1,2}:\d{2}\s*(?:am|pm)` or `\d{3,4}\s*(?:am|pm)`.  The alternations
and bounded repetitions are deterministic once tried greedily with a
single-step backtrack (two digits before `:` first, then one; four digits
first, then three), because the character that must follow each
repetition can never extend it. -/

/-- Literal `(?:am|pm)`: returns the matched meridiem and the rest. -/
def matchAmPm (l : List Char) : Option (List Char × List Char) :=
  if "am".data.isPrefixOf l then some (['a', 'm'], l.drop 2)
  else if "pm".data.isPrefixOf l then some (['p', 'm'], l.drop 2)
  else none

/-- `\s*(am|pm)` continued after some digits: returns the consumed
whitespace, the meridiem group and the rest. -/
def wsAmPm (l : List Char) : Option (List Char × List Char × List Char) :=
  let ws := l.takeWhile isSpaceChar
  match matchAmPm (l.dropWhile isSpaceChar) with
  | some (mer, rest) => some (ws, mer, rest)
  | none => none

/-- `\d{1,2}:\d{2}\s*(?:am|pm)` at the current position: returns the whole
matched group and the rest. -/
def timeAltColon (l : List Char) : Option (List Char × List Char) :=
  let cont : List Char → List Char → Option (List Char × List Char) := fun hh r =>
    match r with
    | m1 :: m2 :: r2 =>
      if m1.isDigit ∧ m2.isDigit then
        match wsAmPm r2 with
        | some (ws, mer, rest) => some (hh ++ ':' :: m1 :: m2 :: (ws ++ mer), rest)
        | none => none
      else none
    | _ => none
  match l with
  | a :: b :: c :: r =>
    if a.isDigit ∧ b.isDigit ∧ c = ':' then cont [a, b] r
    else if a.isDigit ∧ b = ':' then cont [a] (c :: r)
    else none
  | _ => none

/-- `\d{3,4}\s*(?:am|pm)` at the current position, greedy in the digit
count (four digits tried before three). -/
def timeAltDigits (l : List Char) : Option (List Char × List Char) :=
  let tryK : Nat → Option (List Char × List Char) := fun k =>
    let ds := l.take k
    if ds.length = k ∧ ds.all Char.isDigit then
      match wsAmPm (l.drop k) with
      | some (ws, mer, rest) => some (ds ++ ws ++ mer, rest)
      | none => none
    else none
  match tryK 4 with
  | some r => some r
  | none => tryK 3

/-- The full `<time>` alternation (colon form first, as in the source
pattern). -/
def timeAlt (l : List Char) : Option (List Char × List Char) :=
  match timeAltColon l with
  | some r => some r
  | none => timeAltDigits l

/-- `\b<kw>\b\s+(<time>)` tried at one position. -/
def timePat1At (kw : String) (prev : Option Char) (l : List Char) : Option (List Char) :=
  if !boundaryOk prev then none
  else if !(kw.data.isPrefixOf l) then none
  else
    match l.drop kw.data.length with
    | c :: rest =>
      if isSpaceChar c then (timeAlt ((c :: rest).dropWhile isSpaceChar)).map (·.1)
      else none
    | [] => none

/-- `(<time>)\s+\b<kw>\b` tried at one position. -/
def timePat2At (kw : String) (_prev : Option Char) (l : List Char) : Option (List Char) :=
  match timeAlt l with
  | some (g, rest) =>
    match rest with
    | c :: _ =>
      if isSpaceChar c then
        let r2 := rest.dropWhile isSpaceChar
        if kw.data.isPrefixOf r2 ∧ afterBoundary (r2.drop kw.data.length) then some g
        else none
      else none
    | [] => none
  | none => none

/-- `\b(\d{1,2}):(\d{2})\s*(am|pm)\b` of `normalize_time_simple`, tried at
one position; returns the formatted `f"{int(g1)}:{g2} {g3}"`. -/
def ntsColonAt (prev : Option Char) (l : List Char) : Option String :=
  if !boundaryOk prev then none
  else
    let cont : List Char → List Char → Option String := fun hh r =>
      match r with
      | m1 :: m2 :: r2 =>
        if m1.isDigit ∧ m2.isDigit then
          match wsAmPm r2 with
          | some (_, mer, rest) =>
            if afterBoundary rest then
              some (Nat.repr (digitsVal hh) ++ ":" ++ ⟨[m1, m2]⟩ ++ " " ++ ⟨mer⟩)
            else none
          | none => none
        else none
      | _ => none
    match l with
    | a :: b :: c :: r =>
      if a.isDigit ∧ b.isDigit ∧ c = ':' then cont [a, b] r
      else if a.isDigit ∧ b = ':' then cont [a] (c :: r)
      else none
    | _ => none

/-- `\b(\d{3,4})\s*(am|pm)\b` of `normalize_time_simple`, tried at one
position; splits the digit run into hour/minute by length and formats
`f"{h}:{mi} {mer}"`. -/
def ntsDigitsAt (prev : Option Char) (l : List Char) : Option String :=
  if !boundaryOk prev then none
  else
    let tryK : Nat → Option String := fun k =>
      let ds := l.take k
      if ds.length = k ∧ ds.all Char.isDigit then
        match wsAmPm (l.drop k) with
        | some (_, mer, rest) =>
          if afterBoundary rest then
            let h := if k = 3 then digitsVal (ds.take 1) else digitsVal (ds.take 2)
            let mi : String := if k = 3 then ⟨ds.drop 1⟩ else ⟨ds.drop 2⟩
            some (Nat.repr h ++ ":" ++ mi ++ " " ++ ⟨mer⟩)
          else none
        | none => none
      else none
    match tryK 4 with
    | some r => some r
    | none => tryK 3

/-- `normalize_time_simple(raw)`: `'930 pm' -> '9:30 pm'`, `'0530 am' ->
'5:30 am'`, `'9:30 pm'` stays; anything else is returned as cleaned. -/
def normalize_time_simple (raw : String) : String :=
  let r := collapseRuns isSpaceChar (pyReplace (pyLower (pyStrip raw)) "." "")
  match scanChars ntsColonAt none r.data with
  | some s => s
  | none =>
    match scanChars ntsDigitsAt none r.data with
    | some s => s
    | none => r

/-- `extract_time_from_text(t, keyword)`: `<kw> <time>` first, then
`<time> <kw>`, on the cleaned lower-cased transcript. -/
def extract_time_from_text (t : String) (keyword : String) : Option String :=
  let tc := pyLower (clean_transcript t)
  match scanChars (timePat1At keyword) none tc.data with
  | some g => some (normalize_time_simple ⟨g⟩)
  | none =>
    match scanChars (timePat2At keyword) none tc.data with
    | some g => some (normalize_time_simple ⟨g⟩)
    | none => none

/-- `extract_in_time_from_text(t)`. -/
def extract_in_time_from_text (t : String) : Option String :=
  extract_time_from_text t "in"

/-- `extract_out_time_from_text(t)`. -/
def extract_out_time_from_text (t : String) : Option String :=
  extract_time_from_text t "out"

/-!
## `extractor/schema.py`: the fixed output schema

The pydantic model builds each nested section as a dict with a fixed key
set (`default_factory`); `decode_entities_to_json` only ever assigns to
keys of those default dicts, so each section is embedded as a structure
with one field per key, every field carrying the schema's default.
-/

structure Medication where
  name : String
  dose : Option ℚ := none
  unit : Option String := none
deriving Repr, DecidableEq

structure Times where
  «in» : Option String := none
  out : Option String := none
  induction : Option String := none
  cutting : Option String := none
  end_of_surgery : Option String := none
  dressing : Option String := none
deriving Repr, DecidableEq

structure Personnel where
  surgeon_1 : Option String := none
  surgeon_2 : Option String := none
  assistant_1 : Option String := none
  assistant_2 : Option String := none
  anesthetist : Option String := none
  scrub_nurse : Option String := none
  circulating_nurse : Option String := none
  anesthesia_technician : Option String := none
deriving Repr, DecidableEq

structure Diagnosis where
  pre_op : Option String := none
  post_op : Option String := none
deriving Repr, DecidableEq

structure Operation where
  name : Option String := none
  code : Option String := none
  notes : Option String := none
deriving Repr, DecidableEq

structure Anesthesia where
  type : List String := []
  sedation : Option String := none
deriving Repr, DecidableEq

structure Devices where
  foley : Bool := false
  foley_with_irrigation : Bool := false
  hemovac : Bool := false
  ng_tube : Bool := false
  chest_tube : Bool := false
  others : List String := []
deriving Repr, DecidableEq

structure Specimen where
  sent : Bool := false
  type : List String := []
deriving Repr, DecidableEq

structure Vitals where
  bp_systolic : Option Nat := none
  bp_diastolic : Option Nat := none
  heart_rate : Option Nat := none
  spo2 : Option Nat := none
deriving Repr, DecidableEq

structure ORFormJSON where
  date : Option String := none
  times : Times := {}
  personnel : Personnel := {}
  diagnosis : Diagnosis := {}
  operation : Operation := {}
  anesthesia : Anesthesia := {}
  position : Option String := none
  devices : Devices := {}
  specimen : Specimen := {}
  condition_post_op : Option String := none
  vitals : Vitals := {}
  medications : List Medication := []
  free_notes : String := ""
deriving Repr, DecidableEq

/-!
### `model_dump`: the serialized wire form

A small JSON value type and the pydantic `model_dump()` of the record
(field order is pydantic's declaration order).
-/

inductive JVal where
  | null
  | bool (b : Bool)
  | str (s : String)
  | num (q : ℚ)
  | arr (xs : List JVal)
  | obj (fields : List (String × JVal))
deriving Repr

def joptS : Option String → JVal
  | some s => .str s
  | none => .null

def joptN : Option Nat → JVal
  | some n => .num n
  | none => .null

def joptQ : Option ℚ → JVal
  | some q => .num q
  | none => .null

def Medication.model_dump (m : Medication) : JVal :=
  .obj [("name", .str m.name), ("dose", joptQ m.dose), ("unit", joptS m.unit)]

def ORFormJSON.model_dump (f : ORFormJSON) : List (String × JVal) :=
  [("date", joptS f.date),
   ("times", .obj [("in", joptS f.times.«in»), ("out", joptS f.times.out),
     ("induction", joptS f.times.induction), ("cutting", joptS f.times.cutting),
     ("end_of_surgery", joptS f.times.end_of_surgery), ("dressing", joptS f.times.dressing)]),
   ("personnel", .obj [("surgeon_1", joptS f.personnel.surgeon_1),
     ("surgeon_2", joptS f.personnel.surgeon_2),
     ("assistant_1", joptS f.personnel.assistant_1),
     ("assistant_2", joptS f.personnel.assistant_2),
     ("anesthetist", joptS f.personnel.anesthetist),
     ("scrub_nurse", joptS f.personnel.scrub_nurse),
     ("circulating_nurse", joptS f.personnel.circulating_nurse),
     ("anesthesia_technician", joptS f.personnel.anesthesia_technician)]),
   ("diagnosis", .obj [("pre_op", joptS f.diagnosis.pre_op),
     ("post_op", joptS f.diagnosis.post_op)]),
   ("operation", .obj [("name", joptS f.operation.name), ("code", joptS f.operation.code),
     ("notes", joptS f.operation.notes)]),
   ("anesthesia", .obj [("type", .arr (f.anesthesia.type.map .str)),
     ("sedation", joptS f.anesthesia.sedation)]),
   ("position", joptS f.position),
   ("devices", .obj [("foley", .bool f.devices.foley),
     ("foley_with_irrigation", .bool f.devices.foley_with_irrigation),
     ("hemovac", .bool f.devices.hemovac), ("ng_tube", .bool f.devices.ng_tube),
     ("chest_tube", .bool f.devices.chest_tube),
     ("others", .arr (f.devices.others.map .str))]),
   ("specimen", .obj [("sent", .bool f.specimen.sent),
     ("type", .arr (f.specimen.type.map .str))]),
   ("condition_post_op", joptS f.condition_post_op),
   ("vitals", .obj [("bp_systolic", joptN f.vitals.bp_systolic),
     ("bp_diastolic", joptN f.vitals.bp_diastolic),
     ("heart_rate", joptN f.vitals.heart_rate), ("spo2", joptN f.vitals.spo2)]),
   ("medications", .arr (f.medications.map Medication.model_dump)),
   ("free_notes", .str f.free_notes)]

/-!
## `decode_entities_to_json` (`postprocess.py`, lines 174–307)
-/

/-- The `spans` collection loop: group fragment texts by `entity_group`,
dropping entities whose label is missing/empty (`not label`) or whose
`word` is `None` (`word is None`; an empty-string word is kept). -/
def addSpan : List (String × List String) → String → String → List (String × List String)
  | [], label, w => [(label, [w])]
  | (l, ws) :: rest, label, w =>
    if l = label then (l, ws ++ [w]) :: rest else (l, ws) :: addSpan rest label w

def collectSpans (entities : List Entity) : List (String × List String) :=
  entities.foldl (fun sp e =>
    match e.entity_group, e.word with
    | some label, some w => if label = "" then sp else addSpan sp label w
    | _, _ => sp) []

/-- `label in spans` / `spans[label]` on the grouped spans. -/
def spansGet (sp : List (String × List String)) (label : String) : Option (List String) :=
  (sp.find? fun p => p.1 = label).map (·.2)

/-- `spans.get(label, [])`. -/
def spansGetD (sp : List (String × List String)) (label : String) : List String :=
  (spansGet sp label).getD []

/-- A model-derived time field: `normalize_time(join_clean(spans[k]))` when
the label is present (note: stored as the string itself, which may be
empty). -/
def modelTime (sp : List (String × List String)) (label : String) : Option String :=
  (spansGet sp label).map fun ws => normalize_time (join_clean ws)

/-- A model-derived text field: `join_clean(spans[k]) or None` when the
label is present. -/
def modelJoin (sp : List (String × List String)) (label : String) : Option String :=
  match spansGet sp label with
  | some ws => orNone (join_clean ws)
  | none => none

/-- A model-derived numeric vital: `_first_int(join_clean(spans[k]))`. -/
def modelNum (sp : List (String × List String)) (label : String) : Option Nat :=
  match spansGet sp label with
  | some ws => first_int (join_clean ws)
  | none => none

/-- Keyword scan building an ordered deduplicated list, as in the
anesthesia-type and specimen-type loops. -/
def keywordScan (keywords : List String) (text : String) : List String :=
  keywords.foldl (fun acc t => if containsSub text t ∧ t ∉ acc then acc ++ [t] else acc) []

/-- The rule-based override: `if <rule value>: form.<field> = <rule value>`
executed after the model assignment — the rule value wins exactly when it
is truthy, otherwise the model-derived value is kept. -/
def applyOverride (ov model : Option String) : Option String :=
  if pyTruthyOpt ov then ov else model

/-- `decode_entities_to_json(entities, transcript)`.  The Python function
mutates a default-initialized `ORFormJSON` field by field; no assignment
reads another assigned field, so the record is built here in one literal
whose field expressions each reproduce the corresponding assignment
(model-derived value first, then the rule-based override for the surgeon
and in/out-time fields). -/
def decode_entities_to_json (entities : List Entity) (transcript : String) : ORFormJSON :=
  let spans := collectSpans entities
  let surg := extract_surgeons_from_text transcript
  let in_time := extract_in_time_from_text transcript
  let out_time := extract_out_time_from_text transcript
  { date := match spansGet spans "DATE" with
      | some ws => normalize_date (join_clean ws)
      | none => none
    times := {
      «in» := applyOverride in_time (modelTime spans "TIME_IN")
      out := applyOverride out_time (modelTime spans "TIME_OUT")
      induction := modelTime spans "TIME_INDUCTION"
      cutting := modelTime spans "TIME_CUTTING"
      end_of_surgery := modelTime spans "TIME_END"
      dressing := modelTime spans "TIME_DRESSING" }
    personnel := {
      surgeon_1 := applyOverride surg.surgeon_1 (modelJoin spans "PERSON_SURGEON")
      surgeon_2 := applyOverride surg.surgeon_2 none
      anesthetist := modelJoin spans "PERSON_ANESTHETIST"
      scrub_nurse := modelJoin spans "PERSON_SCRUB"
      circulating_nurse := modelJoin spans "PERSON_CIRC"
      anesthesia_technician := modelJoin spans "PERSON_TECH" }
    diagnosis := {
      pre_op := modelJoin spans "DIAG_PRE"
      post_op := modelJoin spans "DIAG_POST" }
    operation := {
      name := modelJoin spans "OP_NAME"
      code := modelJoin spans "OP_CODE" }
    anesthesia := {
      type := match spansGet spans "ANES_TYPE" with
        | some ws => keywordScan ["general", "spinal", "epidural", "local", "regional"]
            (pyLower (join_clean ws))
        | none => [] }
    position := match spansGet spans "POSITION" with
      | some ws => orNone (pyLower (join_clean ws))
      | none => none
    devices := match spansGet spans "DEVICE" with
      | some ws =>
        let d := pyLower (join_clean ws)
        { foley := containsSub d "foley"
          foley_with_irrigation := containsSub d "irrigation"
          hemovac := containsSub d "hemovac"
          ng_tube := containsSub d "ng" || containsSub d "ngt"
          chest_tube := containsSub d "chest" }
      | none => {}
    specimen := match spansGet spans "SPECIMEN" with
      | some ws =>
        { sent := true
          type := keywordScan ["pathology", "culture", "cytology", "frozen", "csf", "stone"]
            (pyLower (join_clean ws)) }
      | none => {}
    condition_post_op := match spansGet spans "CONDITION" with
      | some ws => orNone (pyLower (join_clean ws))
      | none => none
    vitals := {
      bp_systolic := modelNum spans "BP_SYS"
      bp_diastolic := modelNum spans "BP_DIA"
      heart_rate := modelNum spans "HR"
      spo2 := modelNum spans "SPO2" }
    medications := match spansGet spans "DRUG" with
      | some ws =>
        let drug_name := join_clean ws
        let dose := first_float (join_clean (spansGetD spans "DOSE"))
        let unit := orNone (pyStrip (pyReplace (join_clean (spansGetD spans "UNIT")) "##" ""))
        if drug_name ≠ "" then [{ name := drug_name, dose := dose, unit := unit }] else []
      | none => []
    free_notes := pyStrip transcript }

/-- `SlotFillingExtractor.extract`: aggregate sub-word fragments, then
decode (the model pipeline call that produces `entities` is the external
collaborator). -/
def extract (transcript : String) (entities : List Entity) : ORFormJSON :=
  decode_entities_to_json (merge_subword_tokens entities transcript) transcript

/-!
## Token-Tag Aligner: `NERInteractiveTester._align_predictions_to_tokens`
(`src/extractor/ner_interactive_tester.py`, lines 110–167)
-/

/-- Python `text.find(pat, pos)`: the first index `i ≥ pos` at which `pat`
occurs (`none` for `-1`). -/
def findFrom (text pat : List Char) (pos : Nat) : Option Nat :=
  (List.range (text.length + 1)).find? fun i =>
    decide (pos ≤ i) && pat.isPrefixOf (text.drop i)

/-- The token position map: locate each token in the space-joined text
starting from the previous end; a token that is not found keeps the
running position as an approximation (and does not advance it). -/
def buildPositions (text : List Char) : Nat → List String → List (Nat × Nat)
  | _, [] => []
  | pos, tok :: rest =>
    match findFrom text tok.data pos with
    | none => (pos, pos + tok.data.length) :: buildPositions text pos rest
    | some s => (s, s + tok.data.length) :: buildPositions text (s + tok.data.length) rest

/-- Tag normalization for one raw prediction:
`pred.get('entity', 'O').upper()`, kept only if it is a `B-`/`I-` tag. -/
def normTag (p : Entity) : String :=
  let et := pyUpper (p.entity.getD "O")
  if pyStartsWith et "B-" || pyStartsWith et "I-" then et else "O"

/-- `pred_start < token_end and pred_end > token_start`. -/
def overlapB (predStart predEnd : Nat) (pos : Nat × Nat) : Bool :=
  decide (predStart < pos.2) && decide (predEnd > pos.1)

/-- The tag-update rule applied to one overlapping token: the token at
index 0 or a token tagged `O` always takes the new tag; otherwise the new
tag wins only if it is a `B-` tag of a different type
(`tag[2:] != tags[token_idx][2:]`). -/
def updateTag (tokenIdx : Nat) (cur tag : String) : String :=
  if tokenIdx = 0 ∨ cur = "O" then tag
  else if pyStartsWith tag "B-" ∧ (⟨tag.data.drop 2⟩ : String) ≠ (⟨cur.data.drop 2⟩ : String) then tag
  else cur

/-- The inner `for token_idx, (token_start, token_end) in enumerate(...)`
loop for one prediction.  Each iteration assigns only `tags[token_idx]`,
so the sequential mutation is a pointwise map over the two parallel
lists. -/
def applyPred (tag : String) (ps pe : Nat) : Nat → List (Nat × Nat) → List String → List String
  | _, [], tags => tags
  | _, _ :: _, [] => []
  | i, pos :: posRest, cur :: tagRest =>
    (if overlapB ps pe pos then updateTag i cur tag else cur)
      :: applyPred tag ps pe (i + 1) posRest tagRest

/-- `_align_predictions_to_tokens(tokens, raw_predictions)`. -/
def align_predictions_to_tokens (tokens : List String) (preds : List Entity) : List String :=
  let tags := tokens.map fun _ => "O"
  if preds = [] then tags
  else
    let text := List.intercalate [' '] (tokens.map (·.data))
    let positions := buildPositions text 0 tokens
    preds.foldl (fun tgs p => applyPred (normTag p) p.start p.«end» 0 positions tgs) tags

/-!
## Correction validation: `CorrectionManager.validate_corrections`
(`src/extractor/correction_manager.py`, lines 205–266)

The file I/O (loading the JSONL records and the label map) belongs to the
external persistence layer; the validation loop itself is pure and is
embedded over the loaded records and the supplied label vocabulary.
-/

structure CorrectionRecord where
  tokens : List String
  tags : List String
deriving Repr, DecidableEq

/-- One entry of the `issues` list. -/
inductive ValidationIssue where
  | tokenTagMismatch (record_idx tokensLen tagsLen : Nat)
  | invalidTags (record_idx : Nat) (invalid : List String)
deriving Repr, DecidableEq

structure ValidationStats where
  total_records : Nat
  valid_records : Nat
  issues : List ValidationIssue
deriving Repr, DecidableEq

/-- First-occurrence deduplication; models `list(set(...))`, whose
ordering CPython leaves unspecified — only membership in the result is
meaningful. -/
def dedupList (l : List String) : List String :=
  l.foldl (fun acc t => if t ∈ acc then acc else acc ++ [t]) []

/-- The `for idx, record in enumerate(records)` loop: a length mismatch is
reported as a `Token-tag mismatch` issue; otherwise any tags outside the
vocabulary are reported as an `Invalid tags` issue listing the offending
tags; otherwise the record counts as valid. -/
def validateLoop (valid_labels : List String) : Nat → List CorrectionRecord → Nat × List ValidationIssue
  | _, [] => (0, [])
  | idx, r :: rest =>
    if r.tokens.length ≠ r.tags.length then
      let acc := validateLoop valid_labels (idx + 1) rest
      (acc.1, .tokenTagMismatch idx r.tokens.length r.tags.length :: acc.2)
    else
      let invalid := r.tags.filter fun tag => tag ∉ valid_labels
      if invalid ≠ [] then
        let acc := validateLoop valid_labels (idx + 1) rest
        (acc.1, .invalidTags idx (dedupList invalid) :: acc.2)
      else
        let acc := validateLoop valid_labels (idx + 1) rest
        (acc.1 + 1, acc.2)

/-- `validate_corrections` on loaded records and vocabulary. -/
def validate_corrections (valid_labels : List String) (records : List CorrectionRecord) :
    ValidationStats :=
  let acc := validateLoop valid_labels 0 records
  { total_records := records.length, valid_records := acc.1, issues := acc.2 }

/-!
## Helper lemmas
-/

/-- If `"##"` occurs nowhere in `l`, `str.replace("##", "")` leaves `l`
unchanged. -/
theorem replaceFuel_eq_self_of_not_contains (l : List Char) (fuel : Nat)
    (h : ∀ i, ¬ ['#', '#'].isPrefixOf (l.drop i)) :
    replaceFuel ['#', '#'] [] fuel l = l := by
  induction fuel generalizing l with
  | zero => rfl
  | succ fuel ih =>
    cases l with
    | nil => rfl
    | cons c cs =>
      have h0 : ¬ ['#', '#'].isPrefixOf (c :: cs) := by simpa using h 0
      rw [replaceFuel, if_neg (by simp [h0])]
      have := ih cs (fun i => by simpa using h (i + 1))
      rw [this]

/-- `containsSub s "##" = false` means `"##"` is a prefix of no suffix of
`s`. -/
theorem not_prefix_of_not_containsSub (s : String) (h : containsSub s "##" = false) (i : Nat) :
    ¬ ['#', '#'].isPrefixOf (s.data.drop i) := by
  intro hp
  by_cases hi : i ≤ s.data.length
  · have hmem : i ∈ List.range (s.data.length + 1) := List.mem_range.mpr (by omega)
    have := List.any_eq_false.mp h i hmem
    exact this hp
  · have : s.data.drop i = [] := List.drop_eq_nil_of_le (by omega)
    rw [this] at hp
    simp [List.isPrefixOf] at hp

/-- A `##`-prefixed fragment with no later `##` is rewritten by
`word.replace('##', '')` to exactly the remainder after the marker. -/
theorem pyReplace_strips_marker (w : String) (hpre : pyStartsWith w "##" = true)
    (hrest : containsSub (⟨w.data.drop 2⟩ : String) "##" = false) :
    pyReplace w "##" "" = (⟨w.data.drop 2⟩ : String) := by
  obtain ⟨rest, hw⟩ : ∃ rest, w.data = '#' :: '#' :: rest := by
    have hp : ['#', '#'] <+: w.data := by
      have : ("##".data.isPrefixOf w.data) = true := hpre
      exact List.isPrefixOf_iff_prefix.mp this
    obtain ⟨t, ht⟩ := hp
    exact ⟨t, ht.symm⟩
  have hnp : ∀ i, ¬ ['#', '#'].isPrefixOf (rest.drop i) := by
    intro i
    have hdm : (⟨w.data.drop 2⟩ : String).data = rest := by rw [hw]; rfl
    have := not_prefix_of_not_containsSub ⟨w.data.drop 2⟩ hrest i
    rwa [hdm] at this
  unfold pyReplace
  have e1 : "##".data = ['#', '#'] := rfl
  have e2 : "".data = ([] : List Char) := rfl
  rw [e1, e2, hw]
  have goalEq : replaceFuel ['#', '#'] [] (('#' :: '#' :: rest).length) ('#' :: '#' :: rest)
      = rest := by
    simp only [List.length_cons]
    simp only [replaceFuel]
    rw [if_pos ⟨by simp, by simp [List.isPrefixOf]⟩]
    simp only [List.length_cons, List.drop_succ_cons, List.drop_zero, List.nil_append]
    exact replaceFuel_eq_self_of_not_contains rest (rest.length + 1) hnp
  rw [goalEq]
  simp [hw]

/-!
## Claims
-/

/-- **C1.** The rule-based override engine, operating on the raw
transcript only, unconditionally overwrites the surgeon and in/out time
fields of the structured record whenever its patterns match (the rule
value is truthy), and leaves them as the model produced them when they do
not; in particular, for the transcript
`"surgeon 1 john smith in 930 pm"` the returned record has
`personnel.surgeon_1 == "john smith"` and `times.in == "9:30 pm"`
regardless of any conflicting model-derived span for those fields. -/
theorem c1_rule_override :
    (∀ (entities : List Entity) (transcript : String),
      (pyTruthyOpt (extract_surgeons_from_text transcript).surgeon_1 = true →
        (decode_entities_to_json entities transcript).personnel.surgeon_1 =
          (extract_surgeons_from_text transcript).surgeon_1) ∧
      (pyTruthyOpt (extract_surgeons_from_text transcript).surgeon_1 = false →
        (decode_entities_to_json entities transcript).personnel.surgeon_1 =
          modelJoin (collectSpans entities) "PERSON_SURGEON") ∧
      (pyTruthyOpt (extract_surgeons_from_text transcript).surgeon_2 = true →
        (decode_entities_to_json entities transcript).personnel.surgeon_2 =
          (extract_surgeons_from_text transcript).surgeon_2) ∧
      (pyTruthyOpt (extract_surgeons_from_text transcript).surgeon_2 = false →
        (decode_entities_to_json entities transcript).personnel.surgeon_2 = none) ∧
      (pyTruthyOpt (extract_in_time_from_text transcript) = true →
        (decode_entities_to_json entities transcript).times.«in» =
          extract_in_time_from_text transcript) ∧
      (pyTruthyOpt (extract_in_time_from_text transcript) = false →
        (decode_entities_to_json entities transcript).times.«in» =
          modelTime (collectSpans entities) "TIME_IN") ∧
      (pyTruthyOpt (extract_out_time_from_text transcript) = true →
        (decode_entities_to_json entities transcript).times.out =
          extract_out_time_from_text transcript) ∧
      (pyTruthyOpt (extract_out_time_from_text transcript) = false →
        (decode_entities_to_json entities transcript).times.out =
          modelTime (collectSpans entities) "TIME_OUT")) ∧
    (∀ entities : List Entity,
      (decode_entities_to_json entities "surgeon 1 john smith in 930 pm").personnel.surgeon_1 =
        some "john smith" ∧
      (decode_entities_to_json entities "surgeon 1 john smith in 930 pm").times.«in» =
        some "9:30 pm") := by
  constructor
  · intro entities transcript
    refine ⟨?_, ?_, ?_, ?_, ?_, ?_, ?_, ?_⟩ <;>
      intro h <;> simp [decode_entities_to_json, applyOverride, h]
  · intro entities
    have hs : extract_surgeons_from_text "surgeon 1 john smith in 930 pm" =
        { surgeon_1 := some "john smith" } := by decide
    have ht : extract_in_time_from_text "surgeon 1 john smith in 930 pm" = some "9:30 pm" := by
      decide
    constructor
    · simp [decode_entities_to_json, applyOverride, hs, pyTruthyOpt]
    · simp [decode_entities_to_json, applyOverride, ht, pyTruthyOpt]

/-- Witness for `c1_rule_override` at concrete inputs: the override fires
on the scenario transcript, and on a transcript with no match the model
value survives. -/
theorem c1_rule_override_witness :
    (decode_entities_to_json [] "surgeon 1 john smith in 930 pm").personnel.surgeon_1 =
      (extract_surgeons_from_text "surgeon 1 john smith in 930 pm").surgeon_1 ∧
    (decode_entities_to_json [] "hello").personnel.surgeon_1 =
      modelJoin (collectSpans []) "PERSON_SURGEON" ∧
    (decode_entities_to_json [] "hello").times.«in» = modelTime (collectSpans []) "TIME_IN" :=
  ⟨(c1_rule_override.1 [] "surgeon 1 john smith in 930 pm").1 (by decide),
   (c1_rule_override.1 [] "hello").2.1 (by decide),
   (c1_rule_override.1 [] "hello").2.2.2.2.2.1 (by decide)⟩

/-- **C2.** The claim states that a non-continuation prediction is merged
into the open buffer *only if* its label equals the buffer's label (and
the gap is at most 2).  The code computes
`same_entity = buffer.get('entity') == entity.get('entity') or
buffer.get('entity_group') == entity.get('entity_group')`; pipeline
predictions carry `entity_group` but no `entity` key, so the first
comparison is `None == None` — always true — and two adjacent predictions
with *different* labels are merged anyway, contradicting the code's own
comments ("Merge adjacent words of same entity type").  This theorem
evaluates the aggregator at such a failing input: an `OP_NAME` span and a
`DATE` span one character apart collapse into a single `OP_NAME` span. -/
theorem c2_merge_ignores_label_mismatch :
    ∀ s1 s2 : ℚ,
      merge_subword_tokens
        [{ entity_group := some "OP_NAME", word := some "hernia", start := 0, «end» := 6,
           score := s1 },
         { entity_group := some "DATE", word := some "march", start := 7, «end» := 12,
           score := s2 }]
        "hernia march"
      = [{ entity_group := some "OP_NAME", word := some "hernia march", start := 0, «end» := 12,
           score := (s1 + s2) / 2 }] := by
  intro s1 s2
  rfl

/-- **C3.** A prediction whose fragment carries the sub-word continuation
prefix `##` is always merged into the current buffer (when one is open):
the marker is stripped, the remainder appended to the buffer text, the
buffer end extended to the prediction's end, and the buffer score set to
the maximum of the two scores; the merged-output list is untouched.  (The
code strips with `word.replace('##', '')`, which coincides with dropping
the leading marker whenever the remainder contains no further `##`, the
stated hypothesis.)  In particular the two predictions
`{OP_NAME, "append", 0, 6}` and `{OP_NAME, "##ectomy", 6, 14}` aggregate
to the single span `{OP_NAME, "appendectomy", 0, 14}`. -/
theorem c3_continuation_merge :
    (∀ (text : String) (st : MergeState) (b e : Entity) (w : String),
      st.buffer = some b → e.word = some w → pyStartsWith w "##" = true →
      containsSub (⟨w.data.drop 2⟩ : String) "##" = false →
      mergeStep text st e =
        { st with buffer := some { b with
            word := some (b.word.getD "" ++ (⟨w.data.drop 2⟩ : String)),
            «end» := e.«end»,
            score := scoreMax b.score e.score } }) ∧
    (∀ s1 s2 : ℚ,
      merge_subword_tokens
        [{ entity_group := some "OP_NAME", word := some "append", start := 0, «end» := 6,
           score := s1 },
         { entity_group := some "OP_NAME", word := some "##ectomy", start := 6, «end» := 14,
           score := s2 }]
        "appendectomy"
      = [{ entity_group := some "OP_NAME", word := some "appendectomy", start := 0, «end» := 14,
           score := scoreMax s1 s2 }]) := by
  constructor
  · intro text st b e w hb hw hpre hrest
    unfold mergeStep
    rw [hb]
    simp only [hw, Option.getD_some, hpre, if_pos]
    rw [pyReplace_strips_marker w hpre hrest]
  · intro s1 s2
    rfl

/-- Witness for `c3_continuation_merge`: the step property applied to the
scenario's second prediction with the buffer holding the first. -/
theorem c3_continuation_merge_witness :
    mergeStep "appendectomy"
      { merged := [], buffer := some { entity_group := some "OP_NAME", word := some "append", «end» := 6 } }
      { entity_group := some "OP_NAME", word := some "##ectomy", start := 6, «end» := 14 }
    = { merged := [], buffer := some { entity_group := some "OP_NAME", word := some "appendectomy", «end» := 14, score := scoreMax 0 0 } } := by
  have h := c3_continuation_merge.1 "appendectomy"
    { merged := [], buffer := some { entity_group := some "OP_NAME", word := some "append", «end» := 6 } }
    { entity_group := some "OP_NAME", word := some "append", «end» := 6 }
    { entity_group := some "OP_NAME", word := some "##ectomy", start := 6, «end» := 14 }
    "##ectomy" rfl rfl (by decide) (by decide)
  exact h

/-- **C4 (counterexample).** The claim says `extract(transcript, [])`
returns a record in which *every* field except `free_notes` is
unset/empty/default.  It is false: the rule-based overrides run on the
transcript regardless of the prediction list, so with the empty
prediction list and the transcript `"in 930 pm"` the returned record has
`times.in == "9:30 pm"`, not the default `None`. -/
theorem c4_counterexample :
    (extract "in 930 pm" []).times.«in» = some "9:30 pm" ∧
    (extract "in 930 pm" []).times.«in» ≠ none := by
  constructor <;> decide

/-- **C4 (amended).** `extract(transcript, [])` returns a record in which
every field is unset/empty/default except `free_notes` — which equals the
trimmed transcript — and the four rule-override fields
(`personnel.surgeon_1/2`, `times.in/out`), which are filled whenever the
transcript matches the override patterns; when no override pattern
matches, every field except `free_notes` is default.  Moreover, for every
transcript and every prediction list, `free_notes` of the returned record
equals the trimmed original transcript, independent of all other
extraction. -/
theorem c4_empty_predictions :
    (∀ t : String,
      (extract_surgeons_from_text t).surgeon_1 = none →
      (extract_surgeons_from_text t).surgeon_2 = none →
      extract_in_time_from_text t = none →
      extract_out_time_from_text t = none →
      extract t [] = { free_notes := pyStrip t }) ∧
    (∀ (t : String) (entities : List Entity),
      (decode_entities_to_json entities t).free_notes = pyStrip t) := by
  constructor
  · intro t h1 h2 h3 h4
    show decode_entities_to_json [] t = _
    simp [decode_entities_to_json, collectSpans, spansGet, spansGetD, modelTime, modelJoin,
      modelNum, applyOverride, pyTruthyOpt, h1, h2, h3, h4]
  · intro t entities
    rfl

/-- Witness for `c4_empty_predictions` at `t = "hello"` (where no override
pattern matches). -/
theorem c4_empty_predictions_witness :
    extract "hello" [] = { free_notes := pyStrip "hello" } :=
  c4_empty_predictions.1 "hello" (by decide) (by decide) (by decide) (by decide)

/-- **C5.** For every list of date-labeled spans, the date field is the
day-first parse of the space-join of the fragment texts, rendered as an
ISO `YYYY-MM-DD` string (via the modelled external `dateutil` parser);
unparsable text leaves the field unset without an exception (the
embedding is a total function into `Option`); the spans
`{"DATE": ["january", "15th", "2025"]}` yield `date == "2025-01-15"`,
and a purely numeric ambiguous date is resolved day-first. -/
theorem c5_date_normalization :
    (∀ (entities : List Entity) (transcript : String) (ws : List String),
      spansGet (collectSpans entities) "DATE" = some ws →
      (decode_entities_to_json entities transcript).date = normalize_date (join_clean ws)) ∧
    (∀ transcript : String,
      (decode_entities_to_json
        [{ entity_group := some "DATE", word := some "january", «end» := 7 },
         { entity_group := some "DATE", word := some "15th", start := 8, «end» := 12 },
         { entity_group := some "DATE", word := some "2025", start := 13, «end» := 17 }]
        transcript).date = some "2025-01-15") ∧
    normalize_date "05 04 2025" = some "2025-04-05" ∧
    normalize_date "not a date" = none := by
  refine ⟨?_, ?_, by decide, by decide⟩
  · intro entities transcript ws h
    simp only [decode_entities_to_json]
    rw [h]
  · intro transcript
    rfl

/-- Witness for `c5_date_normalization`: the general equation applied to
the scenario's concrete span group. -/
theorem c5_date_normalization_witness :
    (decode_entities_to_json
      [{ entity_group := some "DATE", word := some "january", «end» := 7 },
       { entity_group := some "DATE", word := some "15th", start := 8, «end» := 12 },
       { entity_group := some "DATE", word := some "2025", start := 13, «end» := 17 }]
      "x").date = normalize_date (join_clean ["january", "15th", "2025"]) :=
  c5_date_normalization.1
    [{ entity_group := some "DATE", word := some "january", «end» := 7 },
     { entity_group := some "DATE", word := some "15th", start := 8, «end» := 12 },
     { entity_group := some "DATE", word := some "2025", start := 13, «end» := 17 }]
    "x" ["january", "15th", "2025"] (by decide)

/-!
### Aligner lemmas

Each iteration of the inner alignment loop assigns only `tags[token_idx]`,
so the sequential mutation acts pointwise; these lemmas make that precise.
-/

theorem applyPred_getElem (tag : String) (ps pe : Nat) :
    ∀ (posl : List (Nat × Nat)) (i : Nat) (tags : List String) (n : Nat)
      (pos : Nat × Nat) (cur : String),
      posl[n]? = some pos → tags[n]? = some cur →
      (applyPred tag ps pe i posl tags)[n]? =
        some (if overlapB ps pe pos then updateTag (i + n) cur tag else cur)
  | [], _, tags, n, pos, cur => by simp
  | p :: pr, i, [], n, pos, cur => by simp
  | p :: pr, i, c :: tr, 0, pos, cur => by
    intro hp hc
    simp only [List.getElem?_cons_zero, Option.some.injEq] at hp hc
    simp [applyPred, hp, hc]
  | p :: pr, i, c :: tr, n + 1, pos, cur => by
    intro hp hc
    simp only [List.getElem?_cons_succ] at hp hc
    simp only [applyPred, List.getElem?_cons_succ]
    rw [applyPred_getElem tag ps pe pr (i + 1) tr n pos cur hp hc]
    have hin : i + 1 + n = i + (n + 1) := by omega
    rw [hin]

theorem foldl_applyPred_getElem :
    ∀ (preds : List Entity) (posl : List (Nat × Nat)) (tags : List String) (n : Nat)
      (pos : Nat × Nat) (cur : String),
      posl[n]? = some pos → tags[n]? = some cur →
      (preds.foldl (fun tgs p => applyPred (normTag p) p.start p.«end» 0 posl tgs) tags)[n]? =
        some (preds.foldl
          (fun c p => if overlapB p.start p.«end» pos then updateTag n c (normTag p) else c) cur)
  | [], posl, tags, n, pos, cur => fun _ hc => by simpa using hc
  | p :: rest, posl, tags, n, pos, cur => fun hp hc => by
    have hstep := applyPred_getElem (normTag p) p.start p.«end» posl 0 tags n pos cur hp hc
    simp only [Nat.zero_add] at hstep
    have := foldl_applyPred_getElem rest posl
      (applyPred (normTag p) p.start p.«end» 0 posl tags) n pos
      (if overlapB p.start p.«end» pos then updateTag n cur (normTag p) else cur) hp hstep
    simpa using this

theorem applyPred_length (tag : String) (ps pe : Nat) :
    ∀ (posl : List (Nat × Nat)) (i : Nat) (tags : List String),
      (applyPred tag ps pe i posl tags).length = tags.length
  | [], _, _ => rfl
  | _ :: _, _, [] => rfl
  | p :: pr, i, c :: tr => by
    simp [applyPred, applyPred_length tag ps pe pr (i + 1) tr]

theorem updateTag_cases (i : Nat) (cur tag : String) :
    updateTag i cur tag = tag ∨ updateTag i cur tag = cur := by
  unfold updateTag
  split
  · exact Or.inl rfl
  · split
    · exact Or.inl rfl
    · exact Or.inr rfl

theorem applyPred_mem (tag : String) (ps pe : Nat) :
    ∀ (posl : List (Nat × Nat)) (i : Nat) (tags : List String) (x : String),
      x ∈ applyPred tag ps pe i posl tags → x ∈ tags ∨ x = tag
  | [], _, tags, x => fun hx => Or.inl hx
  | _ :: _, _, [], x => fun hx => by simp [applyPred] at hx
  | p :: pr, i, c :: tr, x => fun hx => by
    simp only [applyPred, List.mem_cons] at hx
    rcases hx with hx | hx
    · by_cases ho : overlapB ps pe p = true
      · rw [if_pos ho] at hx
        rcases updateTag_cases i c tag with h | h
        · exact Or.inr (hx.trans h)
        · exact Or.inl (by simp [hx.trans h])
      · rw [if_neg ho] at hx
        exact Or.inl (by simp [hx])
    · rcases applyPred_mem tag ps pe pr (i + 1) tr x hx with h | h
      · exact Or.inl (List.mem_cons_of_mem _ h)
      · exact Or.inr h

theorem foldl_applyPred_mem :
    ∀ (preds : List Entity) (posl : List (Nat × Nat)) (tags : List String) (x : String),
      x ∈ preds.foldl (fun tgs p => applyPred (normTag p) p.start p.«end» 0 posl tgs) tags →
      x ∈ tags ∨ ∃ p ∈ preds, x = normTag p
  | [], posl, tags, x => fun hx => Or.inl hx
  | p :: rest, posl, tags, x => fun hx => by
    rcases foldl_applyPred_mem rest posl
      (applyPred (normTag p) p.start p.«end» 0 posl tags) x hx with h | h
    · rcases applyPred_mem (normTag p) p.start p.«end» posl 0 tags x h with h2 | h2
      · exact Or.inl h2
      · exact Or.inr ⟨p, List.mem_cons_self p rest, h2⟩
    · obtain ⟨q, hq, hxq⟩ := h
      exact Or.inr ⟨q, List.mem_cons_of_mem _ hq, hxq⟩

/-- **C6 (counterexample).** The claim's precedence rule says a token
already carrying a non-`O` tag is overwritten only by a `B-` tag of a
different entity type; but the code's condition is
`token_idx == 0 or tags[token_idx] == 'O'`, so the token at index 0 is
*always* overwritten.  With one token tagged `B-DATE` by the first
prediction, a second `I-DATE` prediction (same type, not a begin tag)
overwrites it — the claimed precedence would leave `["B-DATE"]`. -/
theorem c6_counterexample :
    align_predictions_to_tokens ["a"]
      [{ entity := some "B-DATE", «end» := 1 }, { entity := some "I-DATE", «end» := 1 }]
      = ["I-DATE"] ∧
    align_predictions_to_tokens ["a"]
      [{ entity := some "B-DATE", «end» := 1 }, { entity := some "I-DATE", «end» := 1 }]
      ≠ ["B-DATE"] := by
  constructor <;> decide

/-- **C6 (amended).** For each raw prediction, every whitespace token
whose character range overlaps `[pred.start, pred.end)` receives the
prediction's (normalized) tag with the precedence implemented by
`updateTag`: a token **at index 0 or** currently tagged `O` always takes
the new tag, and any other token already carrying a non-`O` tag is
overwritten only if the incoming tag is a begin (`B-`) tag for a
different entity type than its current tag.  Formally, the tag at index
`n` of the aligner's output is the left fold of that per-prediction
update over the prediction list, started from `O`. -/
theorem c6_token_tag_precedence :
    ∀ (tokens : List String) (preds : List Entity) (n : Nat) (pos : Nat × Nat),
      (buildPositions (List.intercalate [' '] (tokens.map (·.data))) 0 tokens)[n]? = some pos →
      n < tokens.length →
      (align_predictions_to_tokens tokens preds)[n]? =
        some (preds.foldl
          (fun cur p => if overlapB p.start p.«end» pos then updateTag n cur (normTag p) else cur)
          "O") := by
  intro tokens preds n pos hpos hn
  have htag : (tokens.map fun _ => "O")[n]? = some "O" := by
    rw [List.getElem?_map]
    rw [List.getElem?_eq_getElem hn]
    rfl
  unfold align_predictions_to_tokens
  by_cases hp : preds = []
  · subst hp
    simpa using htag
  · rw [if_neg hp]
    exact foldl_applyPred_getElem preds _ _ n pos "O" hpos htag

/-- Witness for `c6_token_tag_precedence` at a concrete token list and
prediction. -/
theorem c6_token_tag_precedence_witness :
    (align_predictions_to_tokens ["a"] [{ entity := some "B-DATE", «end» := 1 }])[0]? =
      some ([({ entity := some "B-DATE", «end» := 1 } : Entity)].foldl
        (fun cur p => if overlapB p.start p.«end» (0, 1) then updateTag 0 cur (normTag p) else cur)
        "O") :=
  c6_token_tag_precedence ["a"] [{ entity := some "B-DATE", «end» := 1 }] 0 (0, 1)
    (by decide) (by decide)

/-- **C7 (counterexample).** The claim says every tag produced by the
aligner is `O` or lies in the supplied label vocabulary; but the aligner
never consults a vocabulary — it copies (uppercased) `B-`/`I-` entity
strings straight from the raw predictions, so a prediction tagged
`B-DRUG` yields the tag `B-DRUG` even though the vocabulary is
`["O", "B-DATE", "I-DATE"]`. -/
theorem c7_counterexample :
    align_predictions_to_tokens ["x"] [{ entity := some "B-DRUG", «end» := 1 }] = ["B-DRUG"] ∧
    "B-DRUG" ∉ (["O", "B-DATE", "I-DATE"] : List String) ∧ "B-DRUG" ≠ "O" := by
  refine ⟨by decide, by decide, by decide⟩

/-- **C7 (amended).** For every token list and every raw prediction list,
the BIO tag sequence produced by the aligner has exactly one tag per
token (`len(tokens) == len(tags)`), and every tag in it is `O` or the
normalized (`B-`/`I-`, uppercased) entity string of one of the supplied
raw predictions — hence it lies in the vocabulary exactly when the
predictions' tags do. -/
theorem c7_alignment_invariants :
    (∀ (tokens : List String) (preds : List Entity),
      (align_predictions_to_tokens tokens preds).length = tokens.length) ∧
    (∀ (tokens : List String) (preds : List Entity) (tag : String),
      tag ∈ align_predictions_to_tokens tokens preds →
      tag = "O" ∨ ∃ p ∈ preds, tag = normTag p) := by
  constructor
  · intro tokens preds
    unfold align_predictions_to_tokens
    by_cases hp : preds = []
    · subst hp; simp
    · rw [if_neg hp]
      have hfold : ∀ (ps : List Entity) (posl : List (Nat × Nat)) (tags : List String),
          (ps.foldl (fun tgs p => applyPred (normTag p) p.start p.«end» 0 posl tgs) tags).length
            = tags.length := by
        intro ps
        induction ps with
        | nil => intro posl tags; rfl
        | cons p rest ih =>
          intro posl tags
          simp only [List.foldl_cons]
          rw [ih posl _, applyPred_length]
      rw [hfold]
      simp
  · intro tokens preds tag htag
    unfold align_predictions_to_tokens at htag
    by_cases hp : preds = []
    · subst hp
      simp only [if_pos rfl] at htag
      obtain ⟨-, -, h⟩ := List.mem_map.mp htag
      exact Or.inl h.symm
    · rw [if_neg hp] at htag
      rcases foldl_applyPred_mem preds _ _ tag htag with h | h
      · obtain ⟨-, -, h2⟩ := List.mem_map.mp h
        exact Or.inl h2.symm
      · exact Or.inr h

/-- Witness for `c7_alignment_invariants`: the provenance property applied
to a concrete tag of a concrete alignment. -/
theorem c7_alignment_invariants_witness :
    "B-DATE" = "O" ∨
      ∃ p ∈ [({ entity := some "B-DATE", «end» := 1 } : Entity)], "B-DATE" = normTag p :=
  c7_alignment_invariants.2 ["x"] [{ entity := some "B-DATE", «end» := 1 }] "B-DATE" (by decide)

/-!
### C8: malformed and degenerate predictions
-/

/-- A prediction the decoder keeps: label present and non-empty
(`not label` is false) and fragment present (`word is None` is false). -/
def wellFormed (e : Entity) : Bool :=
  match e.entity_group, e.word with
  | some label, some _ => label ≠ ""
  | _, _ => false

theorem collectSpans_step_of_not_wellFormed (sp : List (String × List String)) (e : Entity)
    (h : wellFormed e = false) :
    (match e.entity_group, e.word with
      | some label, some w => if label = "" then sp else addSpan sp label w
      | _, _ => sp) = sp := by
  unfold wellFormed at h
  cases hg : e.entity_group with
  | none => simp
  | some label =>
    cases hw : e.word with
    | none => simp
    | some w =>
      rw [hg, hw] at h
      simp only [ne_eq, decide_not, Bool.not_eq_false', decide_eq_true_eq] at h
      simp [h]

theorem collectSpans_filter :
    ∀ entities : List Entity, collectSpans entities = collectSpans (entities.filter wellFormed) := by
  have aux : ∀ (entities : List Entity) (sp : List (String × List String)),
      entities.foldl (fun sp e =>
        match e.entity_group, e.word with
        | some label, some w => if label = "" then sp else addSpan sp label w
        | _, _ => sp) sp
      = (entities.filter wellFormed).foldl (fun sp e =>
        match e.entity_group, e.word with
        | some label, some w => if label = "" then sp else addSpan sp label w
        | _, _ => sp) sp := by
    intro entities
    induction entities with
    | nil => intro sp; rfl
    | cons e rest ih =>
      intro sp
      by_cases he : wellFormed e = true
      · rw [List.filter_cons_of_pos he]
        simp only [List.foldl_cons]
        exact ih _
      · have he' : wellFormed e = false := by simpa using he
        rw [List.filter_cons_of_neg (by simp [he'])]
        simp only [List.foldl_cons]
        rw [collectSpans_step_of_not_wellFormed sp e he']
        exact ih sp
  intro entities
  exact aux entities []

/-- **C8 (counterexample).** The claim says every prediction whose
fragment is empty or whitespace-only is dropped before aggregation and
contributes to no aggregated span or record field.  It is false: the
aggregator has no such filter — a whitespace-only fragment passes through
as an aggregated span — and at decoding its label still counts, so a
whitespace-only `TIME_IN` prediction turns `times.in` from the default
`None` into the empty string. -/
theorem c8_counterexample :
    merge_subword_tokens [{ entity_group := some "TIME_IN", word := some " ", «end» := 1 }] "x"
      = [{ entity_group := some "TIME_IN", word := some " ", «end» := 1 }] ∧
    (decode_entities_to_json [{ entity_group := some "TIME_IN", word := some " ", «end» := 1 }]
      "").times.«in» = some "" ∧
    (decode_entities_to_json [] "").times.«in» = none := by
  refine ⟨rfl, rfl, rfl⟩

/-- **C8 (amended).** Malformed predictions — label missing or empty, or
fragment `None` — are dropped silently at the decoding stage, and decoding
continues over the remaining predictions: the decoder's output is
unchanged by removing them.  Predictions with empty or whitespace-only
fragments are *not* dropped before aggregation; they are only excluded
from joined field text by the alphanumeric join rule (`join_clean`
ignores fragments with no alphanumeric character), while their labels
still count for label-presence effects. -/
theorem c8_malformed_dropped :
    (∀ (entities : List Entity) (transcript : String),
      decode_entities_to_json entities transcript =
        decode_entities_to_json (entities.filter wellFormed) transcript) ∧
    (∀ words : List String,
      join_clean words =
        join_clean (words.filter fun w => w.data.any fun c => c.isAlpha || c.isDigit)) := by
  constructor
  · intro entities transcript
    unfold decode_entities_to_json
    rw [collectSpans_filter entities]
  · intro words
    simp [join_clean, List.filter_filter]

/-!
### C9: unknown-tag validation
-/

theorem mem_foldl_dedup (a : String) :
    ∀ (l acc : List String),
      a ∈ l.foldl (fun acc t => if t ∈ acc then acc else acc ++ [t]) acc ↔ a ∈ acc ∨ a ∈ l := by
  intro l
  induction l with
  | nil => intro acc; simp
  | cons t rest ih =>
    intro acc
    simp only [List.foldl_cons]
    rw [ih]
    by_cases ht : t ∈ acc
    · rw [if_pos ht]
      constructor
      · rintro (h | h)
        · exact Or.inl h
        · exact Or.inr (List.mem_cons_of_mem _ h)
      · rintro (h | h)
        · exact Or.inl h
        · rcases List.mem_cons.mp h with h | h
          · exact Or.inl (h ▸ ht)
          · exact Or.inr h
    · rw [if_neg ht]
      constructor
      · rintro (h | h)
        · rcases List.mem_append.mp h with h | h
          · exact Or.inl h
          · simp only [List.mem_singleton] at h
            exact Or.inr (h ▸ List.mem_cons_self t rest)
        · exact Or.inr (List.mem_cons_of_mem _ h)
      · rintro (h | h)
        · exact Or.inl (List.mem_append.mpr (Or.inl h))
        · rcases List.mem_cons.mp h with h | h
          · exact Or.inl (List.mem_append.mpr (Or.inr (by simp [h])))
          · exact Or.inr h

theorem mem_dedupList (a : String) (l : List String) : a ∈ dedupList l ↔ a ∈ l := by
  unfold dedupList
  rw [mem_foldl_dedup]
  simp

theorem validateLoop_invalid (valid_labels : List String) :
    ∀ (records : List CorrectionRecord) (start n : Nat) (r : CorrectionRecord) (tag : String),
      records[n]? = some r → r.tokens.length = r.tags.length →
      tag ∈ r.tags → tag ∉ valid_labels →
      ∃ inv, ValidationIssue.invalidTags (start + n) inv ∈ (validateLoop valid_labels start records).2
        ∧ tag ∈ inv
  | [], _, n, r, tag => by simp
  | r0 :: rest, start, 0, r, tag => fun hr hlen htag hnv => by
    simp only [List.getElem?_cons_zero, Option.some.injEq] at hr
    subst hr
    unfold validateLoop
    rw [if_neg (by omega)]
    have hinv : tag ∈ (r0.tags.filter fun t => t ∉ valid_labels) :=
      List.mem_filter.mpr ⟨htag, by simpa using hnv⟩
    have hne : (r0.tags.filter fun t => t ∉ valid_labels) ≠ [] := by
      intro h
      rw [h] at hinv
      simp at hinv
    rw [if_pos hne]
    refine ⟨dedupList (r0.tags.filter fun t => t ∉ valid_labels), ?_, ?_⟩
    · simp
    · exact (mem_dedupList _ _).mpr hinv
  | r0 :: rest, start, n + 1, r, tag => fun hr hlen htag hnv => by
    simp only [List.getElem?_cons_succ] at hr
    obtain ⟨inv, hmem, htin⟩ :=
      validateLoop_invalid valid_labels rest (start + 1) n r tag hr hlen htag hnv
    have harith : start + 1 + n = start + (n + 1) := by omega
    rw [harith] at hmem
    unfold validateLoop
    by_cases h1 : r0.tokens.length ≠ r0.tags.length
    · rw [if_pos h1]
      exact ⟨inv, List.mem_cons_of_mem _ hmem, htin⟩
    · rw [if_neg h1]
      by_cases h2 : (r0.tags.filter fun t => t ∉ valid_labels) ≠ []
      · rw [if_pos h2]
        exact ⟨inv, List.mem_cons_of_mem _ hmem, htin⟩
      · rw [if_neg h2]
        exact ⟨inv, hmem, htin⟩

/-- **C9.** When a hand-corrected tag sequence contains a tag not present
in the label vocabulary, validation surfaces a validation error that
lists the offending tags rather than silently dropping them; in
particular with vocabulary `["O", "B-DATE", "I-DATE"]`, correction tags
containing `"B-DRUG"` produce a validation error naming `"B-DRUG"`. -/
theorem c9_unknown_tag_error :
    (∀ (valid_labels : List String) (records : List CorrectionRecord) (n : Nat)
       (r : CorrectionRecord) (tag : String),
      records[n]? = some r → r.tokens.length = r.tags.length →
      tag ∈ r.tags → tag ∉ valid_labels →
      ∃ inv, ValidationIssue.invalidTags n inv ∈ (validate_corrections valid_labels records).issues
        ∧ tag ∈ inv) ∧
    validate_corrections ["O", "B-DATE", "I-DATE"]
        [{ tokens := ["x", "y"], tags := ["O", "B-DRUG"] }]
      = { total_records := 1, valid_records := 0,
          issues := [ValidationIssue.invalidTags 0 ["B-DRUG"]] } := by
  constructor
  · intro vl records n r tag hr hlen htag hnv
    have h := validateLoop_invalid vl records 0 n r tag hr hlen htag hnv
    simpa [validate_corrections] using h
  · rfl

/-- Witness for `c9_unknown_tag_error`: the general property at the
scenario's concrete vocabulary and record. -/
theorem c9_unknown_tag_error_witness :
    ∃ inv, ValidationIssue.invalidTags 0 inv ∈
        (validate_corrections ["O", "B-DATE", "I-DATE"]
          [{ tokens := ["x", "y"], tags := ["O", "B-DRUG"] }]).issues ∧ "B-DRUG" ∈ inv :=
  c9_unknown_tag_error.1 ["O", "B-DATE", "I-DATE"]
    [{ tokens := ["x", "y"], tags := ["O", "B-DRUG"] }] 0
    { tokens := ["x", "y"], tags := ["O", "B-DRUG"] } "B-DRUG"
    (by decide) (by decide) (by decide) (by decide)

/-!
### C10: the complete fixed schema
-/

/-- The key list of a nested object section of a `model_dump`. -/
def sectionKeys (dump : List (String × JVal)) (sec : String) : Option (List String) :=
  match dump.find? fun p => p.1 = sec with
  | some (_, JVal.obj fs) => some (fs.map Prod.fst)
  | _ => none

/-- **C10 (implicit).** For every entities list and every transcript, the
record returned by `decode_entities_to_json` serializes with the complete
fixed schema — the thirteen top-level keys including `date`, `position`,
`condition_post_op` and `free_notes`, the `times` mapping with all six
time keys, the `personnel` mapping with all eight slots, and the
`diagnosis`, `operation`, `anesthesia`, `devices`, `specimen` and
`vitals` mappings with all of their keys — no key is ever absent; every
medication entry appended has a non-empty name; and every unextracted
field holds its default (`None`, `False`, empty list, or empty
string). -/
theorem c10_fixed_schema :
    ∀ (entities : List Entity) (transcript : String),
      (decode_entities_to_json entities transcript).model_dump.map Prod.fst =
        ["date", "times", "personnel", "diagnosis", "operation", "anesthesia", "position",
         "devices", "specimen", "condition_post_op", "vitals", "medications", "free_notes"] ∧
      sectionKeys (decode_entities_to_json entities transcript).model_dump "times" =
        some ["in", "out", "induction", "cutting", "end_of_surgery", "dressing"] ∧
      sectionKeys (decode_entities_to_json entities transcript).model_dump "personnel" =
        some ["surgeon_1", "surgeon_2", "assistant_1", "assistant_2", "anesthetist",
          "scrub_nurse", "circulating_nurse", "anesthesia_technician"] ∧
      sectionKeys (decode_entities_to_json entities transcript).model_dump "diagnosis" =
        some ["pre_op", "post_op"] ∧
      sectionKeys (decode_entities_to_json entities transcript).model_dump "operation" =
        some ["name", "code", "notes"] ∧
      sectionKeys (decode_entities_to_json entities transcript).model_dump "anesthesia" =
        some ["type", "sedation"] ∧
      sectionKeys (decode_entities_to_json entities transcript).model_dump "devices" =
        some ["foley", "foley_with_irrigation", "hemovac", "ng_tube", "chest_tube", "others"] ∧
      sectionKeys (decode_entities_to_json entities transcript).model_dump "specimen" =
        some ["sent", "type"] ∧
      sectionKeys (decode_entities_to_json entities transcript).model_dump "vitals" =
        some ["bp_systolic", "bp_diastolic", "heart_rate", "spo2"] ∧
      (∀ m ∈ (decode_entities_to_json entities transcript).medications, m.name ≠ "") ∧
      (spansGet (collectSpans entities) "DATE" = none →
        (decode_entities_to_json entities transcript).date = none) ∧
      (spansGet (collectSpans entities) "POSITION" = none →
        (decode_entities_to_json entities transcript).position = none) ∧
      (spansGet (collectSpans entities) "CONDITION" = none →
        (decode_entities_to_json entities transcript).condition_post_op = none) ∧
      (spansGet (collectSpans entities) "TIME_IN" = none →
        extract_in_time_from_text transcript = none →
        (decode_entities_to_json entities transcript).times.«in» = none) ∧
      (spansGet (collectSpans entities) "TIME_OUT" = none →
        extract_out_time_from_text transcript = none →
        (decode_entities_to_json entities transcript).times.out = none) ∧
      (spansGet (collectSpans entities) "TIME_INDUCTION" = none →
        (decode_entities_to_json entities transcript).times.induction = none) ∧
      (spansGet (collectSpans entities) "TIME_CUTTING" = none →
        (decode_entities_to_json entities transcript).times.cutting = none) ∧
      (spansGet (collectSpans entities) "TIME_END" = none →
        (decode_entities_to_json entities transcript).times.end_of_surgery = none) ∧
      (spansGet (collectSpans entities) "TIME_DRESSING" = none →
        (decode_entities_to_json entities transcript).times.dressing = none) ∧
      (spansGet (collectSpans entities) "PERSON_SURGEON" = none →
        (extract_surgeons_from_text transcript).surgeon_1 = none →
        (decode_entities_to_json entities transcript).personnel.surgeon_1 = none) ∧
      ((extract_surgeons_from_text transcript).surgeon_2 = none →
        (decode_entities_to_json entities transcript).personnel.surgeon_2 = none) ∧
      ((decode_entities_to_json entities transcript).personnel.assistant_1 = none) ∧
      ((decode_entities_to_json entities transcript).personnel.assistant_2 = none) ∧
      (spansGet (collectSpans entities) "PERSON_ANESTHETIST" = none →
        (decode_entities_to_json entities transcript).personnel.anesthetist = none) ∧
      (spansGet (collectSpans entities) "PERSON_SCRUB" = none →
        (decode_entities_to_json entities transcript).personnel.scrub_nurse = none) ∧
      (spansGet (collectSpans entities) "PERSON_CIRC" = none →
        (decode_entities_to_json entities transcript).personnel.circulating_nurse = none) ∧
      (spansGet (collectSpans entities) "PERSON_TECH" = none →
        (decode_entities_to_json entities transcript).personnel.anesthesia_technician = none) ∧
      (spansGet (collectSpans entities) "DIAG_PRE" = none →
        (decode_entities_to_json entities transcript).diagnosis.pre_op = none) ∧
      (spansGet (collectSpans entities) "DIAG_POST" = none →
        (decode_entities_to_json entities transcript).diagnosis.post_op = none) ∧
      (spansGet (collectSpans entities) "OP_NAME" = none →
        (decode_entities_to_json entities transcript).operation.name = none) ∧
      (spansGet (collectSpans entities) "OP_CODE" = none →
        (decode_entities_to_json entities transcript).operation.code = none) ∧
      ((decode_entities_to_json entities transcript).operation.notes = none) ∧
      (spansGet (collectSpans entities) "ANES_TYPE" = none →
        (decode_entities_to_json entities transcript).anesthesia.type = []) ∧
      ((decode_entities_to_json entities transcript).anesthesia.sedation = none) ∧
      (spansGet (collectSpans entities) "DEVICE" = none →
        (decode_entities_to_json entities transcript).devices = {}) ∧
      ((decode_entities_to_json entities transcript).devices.others = []) ∧
      (spansGet (collectSpans entities) "SPECIMEN" = none →
        (decode_entities_to_json entities transcript).specimen = {}) ∧
      (spansGet (collectSpans entities) "BP_SYS" = none →
        (decode_entities_to_json entities transcript).vitals.bp_systolic = none) ∧
      (spansGet (collectSpans entities) "BP_DIA" = none →
        (decode_entities_to_json entities transcript).vitals.bp_diastolic = none) ∧
      (spansGet (collectSpans entities) "HR" = none →
        (decode_entities_to_json entities transcript).vitals.heart_rate = none) ∧
      (spansGet (collectSpans entities) "SPO2" = none →
        (decode_entities_to_json entities transcript).vitals.spo2 = none) ∧
      (spansGet (collectSpans entities) "DRUG" = none →
        (decode_entities_to_json entities transcript).medications = []) := by
  intro entities transcript
  refine ⟨rfl, rfl, rfl, rfl, rfl, rfl, rfl, rfl, rfl, ?_, ?_, ?_, ?_, ?_, ?_, ?_, ?_, ?_, ?_,
    ?_, ?_, ?_, ?_, ?_, ?_, ?_, ?_, ?_, ?_, ?_, ?_, ?_, ?_, ?_, ?_, ?_, ?_, ?_, ?_, ?_, ?_, ?_⟩
  · intro m hm
    simp only [decode_entities_to_json] at hm
    split at hm
    · split at hm
      · simp only [List.mem_singleton] at hm
        rw [hm]
        assumption
      · simp at hm
    · simp at hm
  · intro h
    simp only [decode_entities_to_json]
    rw [h]
  · intro h
    simp only [decode_entities_to_json]
    rw [h]
  · intro h
    simp only [decode_entities_to_json]
    rw [h]
  · intro h1 h2
    simp only [decode_entities_to_json, applyOverride, modelTime]
    rw [h1, h2]
    rfl
  · intro h1 h2
    simp only [decode_entities_to_json, applyOverride, modelTime]
    rw [h1, h2]
    rfl
  · intro h
    simp only [decode_entities_to_json, modelTime]
    rw [h]
    rfl
  · intro h
    simp only [decode_entities_to_json, modelTime]
    rw [h]
    rfl
  · intro h
    simp only [decode_entities_to_json, modelTime]
    rw [h]
    rfl
  · intro h
    simp only [decode_entities_to_json, modelTime]
    rw [h]
    rfl
  · intro h1 h2
    simp only [decode_entities_to_json, applyOverride, modelJoin]
    rw [h1, h2]
    rfl
  · intro h
    simp only [decode_entities_to_json, applyOverride]
    rw [h]
    rfl
  · rfl
  · rfl
  · intro h
    simp only [decode_entities_to_json, modelJoin]
    rw [h]
  · intro h
    simp only [decode_entities_to_json, modelJoin]
    rw [h]
  · intro h
    simp only [decode_entities_to_json, modelJoin]
    rw [h]
  · intro h
    simp only [decode_entities_to_json, modelJoin]
    rw [h]
  · intro h
    simp only [decode_entities_to_json, modelJoin]
    rw [h]
  · intro h
    simp only [decode_entities_to_json, modelJoin]
    rw [h]
  · intro h
    simp only [decode_entities_to_json, modelJoin]
    rw [h]
  · intro h
    simp only [decode_entities_to_json, modelJoin]
    rw [h]
  · rfl
  · intro h
    simp only [decode_entities_to_json]
    rw [h]
  · rfl
  · intro h
    simp only [decode_entities_to_json]
    rw [h]
  · simp only [decode_entities_to_json]
    rcases spansGet (collectSpans entities) "DEVICE" with - | ws
    · rfl
    · rfl
  · intro h
    simp only [decode_entities_to_json]
    rw [h]
  · intro h
    simp only [decode_entities_to_json, modelNum]
    rw [h]
  · intro h
    simp only [decode_entities_to_json, modelNum]
    rw [h]
  · intro h
    simp only [decode_entities_to_json, modelNum]
    rw [h]
  · intro h
    simp only [decode_entities_to_json, modelNum]
    rw [h]
  · intro h
    simp only [decode_entities_to_json]
    rw [h]

/-- Witness for `c10_fixed_schema`: the default-field implications applied
at the empty extraction. -/
theorem c10_fixed_schema_witness :
    (decode_entities_to_json [] "").date = none ∧
    (decode_entities_to_json [] "").times.«in» = none ∧
    (decode_entities_to_json [] "").personnel.surgeon_1 = none ∧
    (decode_entities_to_json [] "").devices = {} ∧
    (decode_entities_to_json [] "").medications = [] := by
  obtain ⟨-, -, -, -, -, -, -, -, -, -, hdate, -, -, htin, -, -, -, -, -, hs1, -, -, -, -, -, -,
    -, -, -, -, -, -, -, -, hdev, -, -, -, -, -, -, hdrug⟩ := c10_fixed_schema [] ""
  exact ⟨hdate rfl, htin rfl rfl, hs1 rfl rfl, hdev rfl, hdrug rfl⟩

end ORSST
